import Mathlib

/-!
# Verification of `fetch_workouts_from_ryot.py`

A shallow embedding of the Ryot-to-InfluxDB synchronization script and proofs
of the behavioural properties stated in its specification.

Modelling conventions:
* Python strings are `List Char` (for the character-level slug functions) or
  `String` (for opaque identifiers/timestamps that are only compared).
* JSON numbers (which the script coerces with `float(...)`) are modelled as `ℚ`;
  the claims under study only concern exact products and the `0` defaults, all
  of which are exactly representable.
* Network and database calls are modelled as oracles in an `Env` record; the
  run (`main`) is a pure function from the oracles to the ordered list of
  external actions (fetches, deletes, queries, writes) it performs.
* The regular expression class `\s` (in the `re` module's default Unicode
  mode) and `str.strip()` both classify whitespace by CPython's Unicode
  whitespace table, embedded here in full as `pySpaceNat`; `str.lower()` is
  ASCII lowering on every character the regex filter lets through.
-/

namespace Ryot

/-! ## Constants (lines 14-17 of the script) -/

def WORKOUT_MEASUREMENT : String := "workouts"

def SUMMARY_MEASUREMENT : String := "workout_summary"

def TIME_RANGE_START : String := "1970-01-01T00:00:00Z"

def TIME_RANGE_STOP : String := "2100-01-01T00:00:00Z"

/-! ## The slug functions (lines 117-124) -/

/-- The codepoints CPython classifies as whitespace (`str.isspace`, the basis
of both `str.strip()` and the class `\s` of the `re` module in its default
Unicode mode): tab through carriage return (9-13), the information separators
FS/GS/RS/US (28-31), space (32), next line (133), no-break space (160), ogham
space mark (5760), the U+2000..U+200A spaces (8192-8202), line and paragraph
separator (8232, 8233), narrow no-break space (8239), medium mathematical
space (8287) and ideographic space (12288). -/
def pySpaceNat (n : Nat) : Bool :=
  (decide (9 ≤ n) && decide (n ≤ 13)) || (decide (28 ≤ n) && decide (n ≤ 31)) ||
    decide (n = 32) || decide (n = 133) || decide (n = 160) || decide (n = 5760) ||
    (decide (8192 ≤ n) && decide (n ≤ 8202)) || decide (n = 8232) || decide (n = 8233) ||
    decide (n = 8239) || decide (n = 8287) || decide (n = 12288)

/-- The character class `\s` of Python's `re` module (Unicode mode), which is
also the character set stripped by `str.strip()`. -/
def pyIsSpace (c : Char) : Bool :=
  pySpaceNat c.toNat

/-- The characters kept by `re.sub(r'[^a-zA-Z0-9_\s-]', '', text)`:
ASCII letters, digits, underscore, hyphen and (Unicode) whitespace. -/
def keepChar (c : Char) : Bool :=
  (decide ('a' ≤ c) && decide (c ≤ 'z')) || (decide ('A' ≤ c) && decide (c ≤ 'Z')) ||
    (decide ('0' ≤ c) && decide (c ≤ '9')) || c == '_' || c == '-' || pyIsSpace c

/-- Python `str.strip()`: remove leading and trailing whitespace. -/
def pyStrip (l : List Char) : List Char :=
  ((l.dropWhile pyIsSpace).reverse.dropWhile pyIsSpace).reverse

/-- Python `str.replace(" ", "_")`, character by character. -/
def replaceSpace (c : Char) : Char :=
  if c = ' ' then '_' else c

/-- `slugify` (lines 122-124):
`re.sub(r'[^a-zA-Z0-9_\s-]', '', text).strip().lower().replace(" ", "_")`.
Python's `str.lower` agrees with `Char.toLower` on every character the regex
filter lets through. -/
def slugify (text : List Char) : List Char :=
  ((pyStrip (text.filter keepChar)).map Char.toLower).map replaceSpace

/-- The delimiter used by `parse_exercise_id` (line 119). -/
def DELIM : List Char := "_reps_and_weight_usr_".toList

/-- `s.split(delim)[0]`: the prefix of `s` before the first occurrence of
`delim` (all of `s` if `delim` does not occur). -/
def splitFirst (delim : List Char) : List Char → List Char
  | [] => []
  | c :: cs => if delim.isPrefixOf (c :: cs) then [] else c :: splitFirst delim cs

/-- `parse_exercise_id` (lines 117-120):
`slugify(exercise_id.split("_reps_and_weight_usr_")[0])`. -/
def parse_exercise_id (exercise_id : List Char) : List Char :=
  slugify (splitFirst DELIM exercise_id)

/-! ## The GraphQL transport layer (lines 33-52) -/

/-- The `statistic` object of one set: the `reps` and `weight` keys may each be
absent. -/
structure SetStat where
  reps : Option ℚ
  weight : Option ℚ
  deriving DecidableEq

/-- One exercise of a workout: its identifier and, when the `sets` key is
present, its list of sets. -/
structure Exercise where
  id : List Char
  sets : Option (List SetStat)
  deriving DecidableEq

/-- The `information` object: the `exercises` key may be absent. -/
structure Information where
  exercises : Option (List Exercise)
  deriving DecidableEq

/-- The `details` object of `userWorkoutDetails` with all summary fields
present; the `information` key may be absent. -/
structure WorkoutDetails where
  name : String
  duration : ℚ
  startTime : String
  endTime : String
  information : Option Information
  deriving DecidableEq

/-- The summary point written per workout (lines 200-205). -/
structure SummaryRecord where
  workout_id : String
  workout_name : String
  duration : ℚ
  time : String
  deriving DecidableEq

/-- The per-set point written per set (lines 224-236). `muscles` is `none`
when the tag is omitted (empty muscle list). -/
structure SetRecord where
  workout_id : String
  workout_name : String
  exercise_name : List Char
  muscles : Option String
  reps : ℚ
  weight : ℚ
  volume : ℚ
  set_number : ℚ
  workout_duration : ℚ
  time : String
  deriving DecidableEq

/-- One observable external action of a run, in the order performed. -/
inductive Action where
  | fetchList
  | fetchDetails (workout_id : String)
  | fetchExercise (exercise_id : List Char)
  | queryExisting
  | deleteMeasurement (start stop measurement : String)
  | writeSummary (rec : SummaryRecord)
  | writeSet (rec : SetRecord)
  deriving DecidableEq

/-- The oracles a run interacts with: the source list returned by
`get_workout_ids`, the per-workout outcome of `get_workout_details`, the
per-exercise outcome of `get_exercise_details` (outer `none` = call failed or
no data, inner `none` = no `muscles` key), and the outcome of the InfluxDB
existing-IDs query (`Except.error` = the query raised). -/
structure Env where
  sourceIds : List String
  detailsOf : String → Option WorkoutDetails
  exerciseOf : List Char → Option (Option (List String))
  existingQuery : Except String (List String)

/-- `get_existing_workout_ids` (lines 135-145): the set of IDs on success, and
the empty set when the query raises (lines 143-145). -/
def get_existing_workout_ids (queryResult : Except String (List String)) : List String :=
  match queryResult with
  | .ok ids => ids
  | .error _ => []

/-- `clear_influxdb_measurements` (lines 126-133): delete everything from both
measurements over the script's fixed 1970-2100 time range. -/
def clear_influxdb_measurements : List Action :=
  [Action.deleteMeasurement TIME_RANGE_START TIME_RANGE_STOP WORKOUT_MEASUREMENT,
    Action.deleteMeasurement TIME_RANGE_START TIME_RANGE_STOP SUMMARY_MEASUREMENT]

/-- The reconciliation step of `main` (lines 171-183): the full source list in
reset mode, otherwise the source IDs not already present
(`[id for id in source_workout_ids if id not in existing_workout_ids]`). -/
def workouts_to_process (reset : Bool) (sourceIds existing : List String) : List String :=
  if reset then sourceIds else sourceIds.filter (fun id => !(decide (id ∈ existing)))

/-- The summary point for one workout (lines 200-204). -/
def mkSummary (workout_id : String) (d : WorkoutDetails) : SummaryRecord :=
  { workout_id := workout_id
    workout_name := d.name
    duration := d.duration
    time := d.startTime }

/-- The muscle list used for tagging (lines 212-215): empty unless the call
returned a body with a `muscles` key. -/
def musclesOf (r : Option (Option (List String))) : List String :=
  match r with
  | some (some ms) => ms
  | some none => []
  | none => []

/-- The per-set point (lines 218-236): 1-based set number, `reps` and `weight`
defaulting to 0 when absent, `volume = reps * weight`, and the `muscles` tag
omitted when the muscle list is empty. -/
def mkSetRecord (workout_id workout_name : String) (duration : ℚ) (end_time : String)
    (exercise_name : List Char) (muscles : List String) (i : Nat) (s : SetStat) : SetRecord :=
  { workout_id := workout_id
    workout_name := workout_name
    exercise_name := exercise_name
    muscles := if muscles.isEmpty then none else some (String.intercalate "," muscles)
    reps := s.reps.getD 0
    weight := s.weight.getD 0
    volume := s.reps.getD 0 * s.weight.getD 0
    set_number := (i : ℚ) + 1
    workout_duration := duration
    time := end_time }

/-- The actions performed for one exercise (lines 209-236): fetch its muscle
metadata, then write one point per set when the `sets` key is present. -/
def exerciseActions (exerciseOf : List Char → Option (Option (List String)))
    (workout_id workout_name : String) (duration : ℚ) (end_time : String)
    (ex : Exercise) : List Action :=
  Action.fetchExercise ex.id ::
    match ex.sets with
    | none => []
    | some sets =>
      sets.enum.map (fun p =>
        Action.writeSet (mkSetRecord workout_id workout_name duration end_time
          (parse_exercise_id ex.id) (musclesOf (exerciseOf ex.id)) p.1 p.2))

/-- The actions performed for one workout of the to-process list
(lines 187-236): fetch its details; skip it when that fails; otherwise write
the summary point and then process the exercises when
`information.exercises` is present. -/
def workoutActions (detailsOf : String → Option WorkoutDetails)
    (exerciseOf : List Char → Option (Option (List String)))
    (workout_id : String) : List Action :=
  Action.fetchDetails workout_id ::
    match detailsOf workout_id with
    | none => []
    | some d =>
      Action.writeSummary (mkSummary workout_id d) ::
        match d.information with
        | none => []
        | some info =>
          match info.exercises with
          | none => []
          | some exs =>
            exs.flatMap (exerciseActions exerciseOf workout_id d.name d.duration d.endTime)

/-- `main` (lines 147-243) as the list of external actions of one run: list
the source workouts; stop if none; in dry-run mode fetch the first workout's
details and stop; otherwise reset (delete everything) or reconcile against the
existing IDs, and process each to-process workout in order. -/
def main (dry_run reset : Bool) (env : Env) : List Action :=
  Action.fetchList ::
    match env.sourceIds with
    | [] => []
    | firstId :: _ =>
      if dry_run then [Action.fetchDetails firstId]
      else if reset then
        clear_influxdb_measurements ++
          (workouts_to_process true env.sourceIds []).flatMap
            (workoutActions env.detailsOf env.exerciseOf)
      else
        Action.queryExisting ::
          (workouts_to_process false env.sourceIds
              (get_existing_workout_ids env.existingQuery)).flatMap
            (workoutActions env.detailsOf env.exerciseOf)

/-! ## Action classifiers and concrete test environments -/

/-- Is this action a workout-detail fetch? -/
def isFetchDetails : Action → Bool
  | .fetchDetails _ => true
  | _ => false

/-- Is this action a summary-point write? -/
def isWriteSummary : Action → Bool
  | .writeSummary _ => true
  | _ => false

/-- Is this action a per-set point write? -/
def isWriteSet : Action → Bool
  | .writeSet _ => true
  | _ => false

/-- Is this action a call against the destination store (write, delete or
query)? -/
def isDestinationCall : Action → Bool
  | .queryExisting => true
  | .deleteMeasurement _ _ _ => true
  | .writeSummary _ => true
  | .writeSet _ => true
  | _ => false

/-- An environment whose source list is empty. -/
def emptyEnv : Env :=
  { sourceIds := []
    detailsOf := fun _ => none
    exerciseOf := fun _ => none
    existingQuery := .ok [] }

/-- A workout-detail structure with no `information` key. -/
def sampleDetails : WorkoutDetails :=
  { name := "morning", duration := 60, startTime := "s", endTime := "e", information := none }

/-- An environment with one source workout. -/
def sampleEnv : Env :=
  { sourceIds := ["w1"]
    detailsOf := fun _ => some sampleDetails
    exerciseOf := fun _ => none
    existingQuery := .ok [] }

/-- `sampleEnv` with a failing existing-IDs query. -/
def errorEnv : Env :=
  { sampleEnv with existingQuery := .error "boom" }

/-! ## Character-level facts about the slug pipeline -/

/-- Characters that can appear in a slug: lowercase letters, digits,
underscore, hyphen. This is the alphabet the specification claims for slugs. -/
def slugChar (c : Char) : Bool :=
  (decide ('a' ≤ c) && decide (c ≤ 'z')) || (decide ('0' ≤ c) && decide (c ≤ '9')) ||
    c == '_' || c == '-'

/-- Characters that actually appear in `slugify` output: `slugChar`, or a
whitespace character other than the space itself. -/
def goodOut (c : Char) : Bool :=
  slugChar c || (pyIsSpace c && !(c == ' '))

theorem char_eq_of_toNat {a b : Char} (h : a.toNat = b.toNat) : a = b :=
  Char.ext (UInt32.ext h)

theorem char_eq_iff_toNat {a b : Char} : a = b ↔ a.toNat = b.toNat :=
  ⟨fun h => by rw [h], char_eq_of_toNat⟩

theorem char_le_iff_toNat {a b : Char} : a ≤ b ↔ a.toNat ≤ b.toNat := Iff.rfl

theorem toNat_lit_a : ('a' : Char).toNat = 97 := by decide

theorem toNat_lit_z : ('z' : Char).toNat = 122 := by decide

theorem toNat_lit_A : ('A' : Char).toNat = 65 := by decide

theorem toNat_lit_Z : ('Z' : Char).toNat = 90 := by decide

theorem toNat_lit_0 : ('0' : Char).toNat = 48 := by decide

theorem toNat_lit_9 : ('9' : Char).toNat = 57 := by decide

theorem toNat_lit_underscore : ('_' : Char).toNat = 95 := by decide

theorem toNat_lit_hyphen : ('-' : Char).toNat = 45 := by decide

theorem toNat_lit_space : (' ' : Char).toNat = 32 := by decide

theorem toNat_lit_tab : ('\t' : Char).toNat = 9 := by decide

theorem toNat_lit_lf : ('\n' : Char).toNat = 10 := by decide

theorem toNat_lit_cr : ('\r' : Char).toNat = 13 := by decide

theorem toNat_lit_vt : ('\x0b' : Char).toNat = 11 := by decide

theorem toNat_lit_ff : ('\x0c' : Char).toNat = 12 := by decide

theorem pySpaceNat_iff {n : Nat} :
    pySpaceNat n = true ↔
      (9 ≤ n ∧ n ≤ 13) ∨ (28 ≤ n ∧ n ≤ 31) ∨ n = 32 ∨ n = 133 ∨ n = 160 ∨
        n = 5760 ∨ (8192 ≤ n ∧ n ≤ 8202) ∨ n = 8232 ∨ n = 8233 ∨ n = 8239 ∨
        n = 8287 ∨ n = 12288 := by
  simp only [pySpaceNat, Bool.or_eq_true, Bool.and_eq_true, decide_eq_true_eq]
  omega

theorem pyIsSpace_iff {c : Char} : pyIsSpace c = true ↔ pySpaceNat c.toNat = true :=
  Iff.rfl

theorem keepChar_iff {c : Char} :
    keepChar c = true ↔
      (97 ≤ c.toNat ∧ c.toNat ≤ 122) ∨ (65 ≤ c.toNat ∧ c.toNat ≤ 90) ∨
        (48 ≤ c.toNat ∧ c.toNat ≤ 57) ∨ c.toNat = 95 ∨ c.toNat = 45 ∨
        pySpaceNat c.toNat = true := by
  unfold keepChar pyIsSpace
  simp only [Bool.or_eq_true, Bool.and_eq_true, decide_eq_true_eq, beq_iff_eq,
    char_eq_iff_toNat, char_le_iff_toNat, pySpaceNat_iff, toNat_lit_a, toNat_lit_z, toNat_lit_A,
    toNat_lit_Z, toNat_lit_0, toNat_lit_9, toNat_lit_underscore, toNat_lit_hyphen]
  omega

theorem slugChar_iff {c : Char} :
    slugChar c = true ↔
      (97 ≤ c.toNat ∧ c.toNat ≤ 122) ∨ (48 ≤ c.toNat ∧ c.toNat ≤ 57) ∨
        c.toNat = 95 ∨ c.toNat = 45 := by
  unfold slugChar
  simp only [Bool.or_eq_true, Bool.and_eq_true, decide_eq_true_eq, beq_iff_eq,
    char_eq_iff_toNat, char_le_iff_toNat, toNat_lit_a, toNat_lit_z, toNat_lit_0, toNat_lit_9,
    toNat_lit_underscore, toNat_lit_hyphen]
  omega

theorem goodOut_iff {c : Char} :
    goodOut c = true ↔
      (97 ≤ c.toNat ∧ c.toNat ≤ 122) ∨ (48 ≤ c.toNat ∧ c.toNat ≤ 57) ∨
        c.toNat = 95 ∨ c.toNat = 45 ∨ (pySpaceNat c.toNat = true ∧ c.toNat ≠ 32) := by
  unfold goodOut pyIsSpace
  simp only [Bool.or_eq_true, Bool.and_eq_true, Bool.not_eq_true', beq_eq_false_iff_ne,
    ne_eq, slugChar_iff, pySpaceNat_iff, char_eq_iff_toNat, toNat_lit_space]
  omega

theorem toNat_toLower (c : Char) :
    (Char.toLower c).toNat = if 65 ≤ c.toNat ∧ c.toNat ≤ 90 then c.toNat + 32 else c.toNat := by
  by_cases h : 65 ≤ c.toNat ∧ c.toNat ≤ 90
  · rw [if_pos h, Char.toLower]
    rw [if_pos (by omega : Char.toNat c ≥ 65 ∧ Char.toNat c ≤ 90)]
    rw [Char.ofNat, dif_pos (Or.inl (by omega))]
    rfl
  · rw [if_neg h, Char.toLower, if_neg (by omega)]

theorem toLower_eq_self {c : Char} (h : ¬(65 ≤ c.toNat ∧ c.toNat ≤ 90)) :
    Char.toLower c = c := by
  rw [Char.toLower, if_neg (by omega)]

theorem toNat_replaceSpace (c : Char) :
    (replaceSpace c).toNat = if c.toNat = 32 then 95 else c.toNat := by
  by_cases h : c = ' '
  · subst h; decide
  · have h32 : c.toNat ≠ 32 := fun e => h (char_eq_of_toNat (by rw [e]; decide))
    rw [replaceSpace, if_neg h, if_neg h32]

theorem replaceSpace_eq_self {c : Char} (h : c.toNat ≠ 32) : replaceSpace c = c := by
  rw [replaceSpace, if_neg (fun e => h (by rw [e]; decide))]

/-- Every character the regex filter keeps is mapped by
`lower` + `replace(" ", "_")` into the actual output alphabet. -/
theorem out_char {c : Char} (h : keepChar c = true) :
    goodOut (replaceSpace (Char.toLower c)) = true := by
  rw [goodOut_iff, toNat_replaceSpace, toNat_toLower]
  rw [keepChar_iff] at h
  simp only [pySpaceNat_iff] at h ⊢
  split
  · split at * <;> omega
  · split at * <;> omega

theorem goodOut_keepChar {c : Char} (h : goodOut c = true) : keepChar c = true := by
  rw [keepChar_iff]; rw [goodOut_iff] at h
  simp only [pySpaceNat_iff] at h ⊢
  omega

theorem goodOut_toLower_fixed {c : Char} (h : goodOut c = true) : Char.toLower c = c := by
  rw [goodOut_iff] at h
  simp only [pySpaceNat_iff] at h
  exact toLower_eq_self (by omega)

theorem goodOut_replaceSpace_fixed {c : Char} (h : goodOut c = true) : replaceSpace c = c := by
  rw [goodOut_iff] at h
  simp only [pySpaceNat_iff] at h
  exact replaceSpace_eq_self (by omega)

theorem goodOut_ne_space {c : Char} (h : goodOut c = true) : c ≠ ' ' := by
  rw [goodOut_iff] at h
  exact fun e => by rw [e] at h; revert h; decide

/-- `lower` followed by `replace(" ", "_")` never turns a non-whitespace
character into whitespace. -/
theorem not_space_stable {c : Char} (h : pyIsSpace c = false) :
    pyIsSpace (replaceSpace (Char.toLower c)) = false := by
  rw [Bool.eq_false_iff] at h ⊢
  intro hs
  apply h
  rw [pyIsSpace_iff] at hs ⊢
  rw [toNat_replaceSpace, toNat_toLower] at hs
  simp only [pySpaceNat_iff] at hs ⊢
  split at hs
  · split at hs <;> omega
  · split at hs <;> omega

/-! ## List-level facts about `pyStrip` and `slugify` -/

theorem head?_dropWhile {p : Char → Bool} {l : List Char} :
    ∀ c, (l.dropWhile p).head? = some c → p c = false := by
  induction l with
  | nil => intro c h; simp at h
  | cons a as ih =>
    intro c h
    by_cases hpa : p a = true
    · rw [List.dropWhile_cons, if_pos hpa] at h
      exact ih c h
    · rw [List.dropWhile_cons, if_neg hpa] at h
      simp only [List.head?_cons, Option.some.injEq] at h
      subst h
      exact Bool.eq_false_iff.mpr hpa

theorem getLast?_dropWhile {p : Char → Bool} {l : List Char}
    (h : l.dropWhile p ≠ []) : (l.dropWhile p).getLast? = l.getLast? := by
  induction l with
  | nil => simp at h
  | cons a as ih =>
    by_cases hpa : p a = true
    · rw [List.dropWhile_cons, if_pos hpa] at h ⊢
      have has : as ≠ [] := by
        intro e; rw [e] at h; simp at h
      rw [ih h]
      cases as with
      | nil => exact absurd rfl has
      | cons b bs => rw [List.getLast?_cons_cons]
    · rw [List.dropWhile_cons, if_neg hpa]

theorem dropWhile_eq_self_of_head {p : Char → Bool} {l : List Char}
    (h : ∀ c, l.head? = some c → p c = false) : l.dropWhile p = l := by
  cases l with
  | nil => rfl
  | cons a as =>
    rw [List.dropWhile_cons, if_neg]
    rw [h a rfl]
    simp

theorem pyStrip_head {l : List Char} :
    ∀ c, (pyStrip l).head? = some c → pyIsSpace c = false := by
  intro c h
  unfold pyStrip at h
  rw [List.head?_reverse] at h
  rcases hw : (l.dropWhile pyIsSpace).reverse.dropWhile pyIsSpace with _ | ⟨b, bs⟩
  · rw [hw] at h; simp at h
  · have hne : (l.dropWhile pyIsSpace).reverse.dropWhile pyIsSpace ≠ [] := by
      rw [hw]; simp
    rw [getLast?_dropWhile hne, List.getLast?_reverse] at h
    exact head?_dropWhile c h

theorem pyStrip_last {l : List Char} :
    ∀ c, (pyStrip l).getLast? = some c → pyIsSpace c = false := by
  intro c h
  unfold pyStrip at h
  rw [List.getLast?_reverse] at h
  exact head?_dropWhile c h

theorem pyStrip_eq_self {l : List Char}
    (h1 : ∀ c, l.head? = some c → pyIsSpace c = false)
    (h2 : ∀ c, l.getLast? = some c → pyIsSpace c = false) : pyStrip l = l := by
  unfold pyStrip
  rw [dropWhile_eq_self_of_head h1]
  rw [dropWhile_eq_self_of_head (fun c hc => h2 c (by rwa [List.head?_reverse] at hc))]
  exact List.reverse_reverse l

theorem pyStrip_mem {l : List Char} {c : Char} (h : c ∈ pyStrip l) : c ∈ l := by
  unfold pyStrip at h
  rw [List.mem_reverse] at h
  have h2 := (List.dropWhile_sublist pyIsSpace).mem h
  rw [List.mem_reverse] at h2
  exact (List.dropWhile_sublist pyIsSpace).mem h2

/-- Every character of `slugify` output is a lowercase letter, digit,
underscore, hyphen, or a whitespace character other than space. -/
theorem slugify_chars_good {s : List Char} : ∀ c ∈ slugify s, goodOut c = true := by
  intro c hc
  unfold slugify at hc
  simp only [List.mem_map] at hc
  obtain ⟨b, ⟨a, ha, rfl⟩, rfl⟩ := hc
  have hk : keepChar a = true := (List.mem_filter.mp (pyStrip_mem ha)).2
  exact out_char hk

theorem slugify_head_not_space {s : List Char} :
    ∀ c, (slugify s).head? = some c → pyIsSpace c = false := by
  intro c h
  unfold slugify at h
  rw [List.head?_map, List.head?_map] at h
  rcases hh : (pyStrip (s.filter keepChar)).head? with _ | a
  · simp [hh] at h
  · rw [hh] at h
    simp only [Option.map_some', Option.some.injEq] at h
    subst h
    exact not_space_stable (pyStrip_head a hh)

theorem slugify_last_not_space {s : List Char} :
    ∀ c, (slugify s).getLast? = some c → pyIsSpace c = false := by
  intro c h
  unfold slugify at h
  rw [List.getLast?_map, List.getLast?_map] at h
  rcases hh : (pyStrip (s.filter keepChar)).getLast? with _ | a
  · simp [hh] at h
  · rw [hh] at h
    simp only [Option.map_some', Option.some.injEq] at h
    subst h
    exact not_space_stable (pyStrip_last a hh)

/-- `slugify` is idempotent. -/
theorem slugify_idem (s : List Char) : slugify (slugify s) = slugify s := by
  have hg : ∀ c ∈ slugify s, goodOut c = true := fun c hc => slugify_chars_good c hc
  have step1 : (slugify s).filter keepChar = slugify s :=
    List.filter_eq_self.mpr (fun c hc => goodOut_keepChar (hg c hc))
  have step2 : pyStrip (slugify s) = slugify s :=
    pyStrip_eq_self slugify_head_not_space slugify_last_not_space
  have step3 : (slugify s).map Char.toLower = slugify s := by
    rw [List.map_congr_left (fun a ha => goodOut_toLower_fixed (hg a ha)), List.map_id']
  have step4 : (slugify s).map replaceSpace = slugify s := by
    rw [List.map_congr_left (fun a ha => goodOut_replaceSpace_fixed (hg a ha)), List.map_id']
  calc slugify (slugify s)
      = (((slugify s).filter keepChar |> pyStrip).map Char.toLower).map replaceSpace := rfl
    _ = slugify s := by rw [step1, step2, step3, step4]

/-! ## Facts about `splitFirst` -/

theorem isPrefixOf_self_append (l t : List Char) : l.isPrefixOf (l ++ t) = true := by
  induction l with
  | nil => simp [List.isPrefixOf]
  | cons a as ih => simp [List.isPrefixOf, List.cons_append, ih]

theorem isPrefixOf_cons_self (d : Char) (ds t : List Char) :
    (d :: ds).isPrefixOf (d :: (ds ++ t)) = true := by
  exact isPrefixOf_self_append (d :: ds) t

theorem isPrefixOf_self (l : List Char) : l.isPrefixOf l = true := by
  rw [show l.isPrefixOf l = l.isPrefixOf (l ++ []) by rw [List.append_nil]]
  exact isPrefixOf_self_append l []

/-- `isPrefixOf` only inspects the first `l.length` characters. -/
theorem isPrefixOf_append_left (l : List Char) :
    ∀ (s t : List Char), l.length ≤ s.length → l.isPrefixOf (s ++ t) = l.isPrefixOf s := by
  induction l with
  | nil => intro s t _; simp [List.isPrefixOf]
  | cons a as ih =>
    intro s t h
    cases s with
    | nil => simp at h
    | cons b bs =>
      simp only [List.cons_append, List.isPrefixOf, List.append_eq]
      rw [ih bs t (by simpa using h)]

/-- The split result does not depend on what follows the first occurrence of
the delimiter. -/
theorem splitFirst_stable (delim : List Char) (hd : delim ≠ []) (name rest : List Char) :
    splitFirst delim (name ++ (delim ++ rest)) = splitFirst delim (name ++ delim) := by
  induction name with
  | nil =>
    simp only [List.nil_append]
    cases delim with
    | nil => exact absurd rfl hd
    | cons d ds =>
      simp only [List.cons_append, splitFirst, List.append_eq, isPrefixOf_cons_self,
        isPrefixOf_self, if_true]
  | cons c cs ih =>
    have hcond : delim.isPrefixOf (c :: (cs ++ (delim ++ rest))) =
        delim.isPrefixOf (c :: (cs ++ delim)) := by
      have h4 := isPrefixOf_append_left delim (c :: (cs ++ delim)) rest
        (by simp only [List.length_cons, List.length_append]; omega)
      rw [show (c :: (cs ++ delim)) ++ rest = c :: (cs ++ (delim ++ rest)) by simp] at h4
      exact h4
    simp only [List.cons_append, splitFirst, List.append_eq]
    rw [hcond, ih]

/-- When the delimiter occurs nowhere before position `name.length`, the split
result is exactly `name`. -/
theorem splitFirst_exact (delim : List Char) (hd : delim ≠ []) (name rest : List Char)
    (h : ∀ i, i < name.length → delim.isPrefixOf ((name ++ (delim ++ rest)).drop i) = false) :
    splitFirst delim (name ++ (delim ++ rest)) = name := by
  induction name with
  | nil =>
    simp only [List.nil_append]
    cases delim with
    | nil => exact absurd rfl hd
    | cons d ds =>
      simp only [List.cons_append, splitFirst, List.append_eq, isPrefixOf_cons_self, if_true]
  | cons c cs ih =>
    have h0 : delim.isPrefixOf (c :: (cs ++ (delim ++ rest))) = false := by
      have h5 := h 0 (by simp)
      simpa using h5
    simp only [List.cons_append, splitFirst, List.append_eq, h0, Bool.false_eq_true, if_false]
    rw [ih]
    intro i hi
    have h6 := h (i + 1) (by simp only [List.length_cons]; omega)
    simpa using h6

theorem DELIM_ne_nil : DELIM ≠ [] := by decide

/-! ## Facts about the run trace -/

theorem writeSet_mem_exerciseActions {eo : List Char → Option (Option (List String))}
    {wid wn : String} {dur : ℚ} {et : String} {ex : Exercise} {r : SetRecord}
    (h : Action.writeSet r ∈ exerciseActions eo wid wn dur et ex) :
    r.volume = r.reps * r.weight := by
  unfold exerciseActions at h
  rw [List.mem_cons] at h
  rcases h with h | h
  · exact absurd h (by simp)
  · rcases hx : ex.sets with _ | ss
    · rw [hx] at h; simp at h
    · rw [hx] at h
      simp only [List.mem_map] at h
      obtain ⟨p, hp, heq⟩ := h
      have he : r = mkSetRecord wid wn dur et (parse_exercise_id ex.id)
          (musclesOf (eo ex.id)) p.1 p.2 := by
        cases heq; rfl
      rw [he]
      rfl

theorem writeSet_mem_workoutActions {dO : String → Option WorkoutDetails}
    {eo : List Char → Option (Option (List String))} {wid : String} {r : SetRecord}
    (h : Action.writeSet r ∈ workoutActions dO eo wid) :
    r.volume = r.reps * r.weight := by
  unfold workoutActions at h
  rw [List.mem_cons] at h
  rcases h with h | h
  · exact absurd h (by simp)
  · rcases hd : dO wid with _ | d
    · rw [hd] at h; simp at h
    · rw [hd] at h
      rw [List.mem_cons] at h
      rcases h with h | h
      · exact absurd h (by simp)
      · rcases hi : d.information with _ | info
        · rw [hi] at h; simp at h
        · simp only [hi] at h
          rcases hex : info.exercises with _ | exs
          · simp only [hex] at h; simp at h
          · simp only [hex] at h
            simp only [List.mem_flatMap] at h
            obtain ⟨ex, _, hmem⟩ := h
            exact writeSet_mem_exerciseActions hmem

theorem writeSet_mem_main {dry reset : Bool} {env : Env} {r : SetRecord}
    (h : Action.writeSet r ∈ main dry reset env) :
    r.volume = r.reps * r.weight := by
  unfold main at h
  rw [List.mem_cons] at h
  rcases h with h | h
  · exact absurd h (by simp)
  · rcases hs : env.sourceIds with _ | ⟨f, t⟩
    · rw [hs] at h; simp at h
    · rw [hs] at h
      cases dry with
      | true => simp at h
      | false =>
        cases reset with
        | true =>
          simp only [Bool.false_eq_true, if_false, if_true, List.mem_append] at h
          rcases h with h | h
          · exact absurd h (by simp [clear_influxdb_measurements])
          · simp only [List.mem_flatMap] at h
            obtain ⟨wid, _, hmem⟩ := h
            exact writeSet_mem_workoutActions hmem
        | false =>
          simp only [Bool.false_eq_true, if_false, List.mem_cons] at h
          rcases h with h | h
          · exact absurd h (by simp)
          · simp only [List.mem_flatMap] at h
            obtain ⟨wid, _, hmem⟩ := h
            exact writeSet_mem_workoutActions hmem

theorem fetchDetails_mem_workoutActions (dO : String → Option WorkoutDetails)
    (eo : List Char → Option (Option (List String))) (wid : String) :
    Action.fetchDetails wid ∈ workoutActions dO eo wid := by
  unfold workoutActions
  exact List.mem_cons_self _ _

theorem writeSummary_mem_workoutActions {dO : String → Option WorkoutDetails}
    (eo : List Char → Option (Option (List String))) {wid : String} {d : WorkoutDetails}
    (hd : dO wid = some d) :
    Action.writeSummary (mkSummary wid d) ∈ workoutActions dO eo wid := by
  unfold workoutActions
  rw [hd]
  rw [List.mem_cons]
  right
  exact List.mem_cons_self _ _

/-- Any action performed for a to-process workout appears in the incremental
run's trace. -/
theorem mem_main_incremental {env : Env} {a : Action}
    (ha : ∃ wid ∈ workouts_to_process false env.sourceIds
        (get_existing_workout_ids env.existingQuery),
      a ∈ workoutActions env.detailsOf env.exerciseOf wid) :
    a ∈ main false false env := by
  obtain ⟨wid, hw, hmem⟩ := ha
  unfold main
  rcases hs : env.sourceIds with _ | ⟨f, t⟩
  · rw [hs] at hw; simp [workouts_to_process] at hw
  · rw [hs] at hw
    simp only [hs, Bool.false_eq_true, if_false, List.mem_cons]
    right; right
    exact List.mem_flatMap.mpr ⟨wid, hw, hmem⟩

theorem exerciseActions_counts_no_sets (eo : List Char → Option (Option (List String)))
    (wid wn : String) (dur : ℚ) (et : String) {ex : Exercise} (hs : ex.sets = none) :
    (exerciseActions eo wid wn dur et ex).countP isWriteSet = 0 ∧
    (exerciseActions eo wid wn dur et ex).countP isWriteSummary = 0 := by
  unfold exerciseActions
  rw [hs]
  simp [List.countP_cons, isWriteSet, isWriteSummary, List.countP_nil]

theorem flatMap_counts_no_sets (eo : List Char → Option (Option (List String)))
    (wid wn : String) (dur : ℚ) (et : String) :
    ∀ exs : List Exercise, (∀ ex ∈ exs, ex.sets = none) →
      ((exs.flatMap (exerciseActions eo wid wn dur et)).countP isWriteSet = 0 ∧
        (exs.flatMap (exerciseActions eo wid wn dur et)).countP isWriteSummary = 0) := by
  intro exs h
  induction exs with
  | nil => simp
  | cons e es ih =>
    have he := exerciseActions_counts_no_sets eo wid wn dur et (h e (List.mem_cons_self _ _))
    have hes := ih (fun ex hex => h ex (List.mem_cons_of_mem _ hex))
    rw [List.flatMap_cons, List.countP_append, List.countP_append]
    omega

/-! ## The claims -/

/-- Claim C1: in incremental mode, for every source workout-identifier list
and every set of existing destination identifiers, the to-process list is
exactly the source identifiers not in the existing set, in source order: it is
a sublist of the source list, membership is source-membership minus existing,
and per-identifier multiplicity is preserved for non-existing identifiers. -/
theorem c1_incremental_to_process (source existing : List String) :
    (workouts_to_process false source existing).Sublist source ∧
    (∀ x, x ∈ workouts_to_process false source existing ↔ x ∈ source ∧ x ∉ existing) ∧
    (∀ x, (workouts_to_process false source existing).count x =
      if x ∈ existing then 0 else source.count x) := by
  refine ⟨?_, ?_, ?_⟩
  · simp only [workouts_to_process, Bool.false_eq_true, if_false]
    exact List.filter_sublist source
  · intro x
    simp [workouts_to_process, List.mem_filter]
  · intro x
    simp only [workouts_to_process, Bool.false_eq_true, if_false]
    by_cases hx : x ∈ existing
    · rw [if_pos hx, List.count_eq_zero]
      intro hmem
      rw [List.mem_filter] at hmem
      simp [hx] at hmem
    · rw [if_neg hx]
      exact List.count_filter (by simp [hx])

theorem c1_witness :
    (workouts_to_process false ["a", "b"] ["b"]).count "a" =
      if "a" ∈ (["b"] : List String) then 0 else (["a", "b"] : List String).count "a" :=
  (c1_incremental_to_process ["a", "b"] ["b"]).2.2 "a"

/-- Claim C2, counterexample: with an empty source list, a reset-mode run
terminates before performing any delete, so the claim's "for every source
workout-identifier list" quantifier is too strong. -/
theorem c2_counterexample :
    main false true emptyEnv = [Action.fetchList] ∧
    Action.deleteMeasurement TIME_RANGE_START TIME_RANGE_STOP WORKOUT_MEASUREMENT ∉
      main false true emptyEnv := by
  refine ⟨rfl, ?_⟩
  intro hmem
  rw [show main false true emptyEnv = [Action.fetchList] from rfl] at hmem
  simp at hmem

/-- Claim C2 (amended to non-empty source lists): in reset mode the run first
deletes all records of both measurements (over the script's fixed full
1970-2100 range) and then processes the full source list; the to-process list
is the full source list whatever the destination held, and the trace is
independent of the existing-IDs query outcome. -/
theorem c2_reset_mode (env : Env) (h : env.sourceIds ≠ []) :
    main false true env =
      Action.fetchList ::
        Action.deleteMeasurement TIME_RANGE_START TIME_RANGE_STOP WORKOUT_MEASUREMENT ::
        Action.deleteMeasurement TIME_RANGE_START TIME_RANGE_STOP SUMMARY_MEASUREMENT ::
        env.sourceIds.flatMap (workoutActions env.detailsOf env.exerciseOf) ∧
    (∀ existing, workouts_to_process true env.sourceIds existing = env.sourceIds) ∧
    (∀ q, main false true { env with existingQuery := q } = main false true env) := by
  refine ⟨?_, fun existing => rfl, fun q => rfl⟩
  rcases hs : env.sourceIds with _ | ⟨f, t⟩
  · exact absurd hs h
  · unfold main
    simp only [hs, Bool.false_eq_true, if_false, if_true]
    rw [show workouts_to_process true (f :: t) [] = f :: t from rfl]
    rfl

theorem c2_witness :
    workouts_to_process true sampleEnv.sourceIds ["x"] = sampleEnv.sourceIds :=
  (c2_reset_mode sampleEnv (by simp [sampleEnv])).2.1 ["x"]

/-- Claim C3, counterexample: the split is at the first occurrence of the
delimiter, so when the name part itself contains the delimiter the derived
slug is not the slugified name. Here the name is the delimiter string itself
and the rest part is empty. -/
theorem c3_counterexample :
    parse_exercise_id (DELIM ++ (DELIM ++ [])) ≠ slugify DELIM := by decide

/-- Claim C3 (amended): for an identifier `name ++ DELIM ++ rest`, if the
delimiter does not occur starting at any position before `name.length` then
the derived slug is `slugify name`; and unconditionally — whatever `name`
contains — two identifiers with the same name prefix but different rests
yield the same slug. -/
theorem c3_slug_of_prefixed_id (name rest : List Char) :
    ((∀ i, i < name.length →
        DELIM.isPrefixOf ((name ++ (DELIM ++ rest)).drop i) = false) →
      parse_exercise_id (name ++ (DELIM ++ rest)) = slugify name) ∧
    (∀ rest1 rest2, parse_exercise_id (name ++ (DELIM ++ rest1)) =
      parse_exercise_id (name ++ (DELIM ++ rest2))) := by
  constructor
  · intro h
    unfold parse_exercise_id
    rw [splitFirst_exact DELIM DELIM_ne_nil name rest h]
  · intro r1 r2
    unfold parse_exercise_id
    rw [splitFirst_stable DELIM DELIM_ne_nil name r1,
      splitFirst_stable DELIM DELIM_ne_nil name r2]

theorem c3_witness :
    parse_exercise_id ("Bench Press".toList ++ (DELIM ++ "abc".toList)) =
      slugify "Bench Press".toList ∧
    parse_exercise_id (DELIM ++ (DELIM ++ "u".toList)) =
      parse_exercise_id (DELIM ++ (DELIM ++ "v".toList)) :=
  ⟨(c3_slug_of_prefixed_id "Bench Press".toList "abc".toList).1 (by decide),
    (c3_slug_of_prefixed_id DELIM "u".toList).2 "u".toList "v".toList⟩

/-- Claim C4: a missing `reps` or `weight` key defaults to 0; every per-set
point written by any run has `volume = reps * weight` over the defaulted
values; in particular `reps` absent with `weight = 50` gives `reps = 0` and
`volume = 0`. -/
theorem c4_defaults_and_volume :
    (∀ (dry reset : Bool) (env : Env) (r : SetRecord),
      Action.writeSet r ∈ main dry reset env → r.volume = r.reps * r.weight) ∧
    (∀ (wid wn : String) (dur : ℚ) (et : String) (exn : List Char)
        (ms : List String) (i : Nat) (s : SetStat),
      (s.reps = none → (mkSetRecord wid wn dur et exn ms i s).reps = 0) ∧
      (s.weight = none → (mkSetRecord wid wn dur et exn ms i s).weight = 0) ∧
      (mkSetRecord wid wn dur et exn ms i s).volume =
        (mkSetRecord wid wn dur et exn ms i s).reps *
          (mkSetRecord wid wn dur et exn ms i s).weight) ∧
    (∀ (wid wn : String) (dur : ℚ) (et : String) (exn : List Char)
        (ms : List String) (i : Nat),
      (mkSetRecord wid wn dur et exn ms i ⟨none, some 50⟩).reps = 0 ∧
      (mkSetRecord wid wn dur et exn ms i ⟨none, some 50⟩).volume = 0) := by
  refine ⟨fun _ _ _ _ h => writeSet_mem_main h, ?_, ?_⟩
  · intro wid wn dur et exn ms i s
    refine ⟨fun h => by simp [mkSetRecord, h], fun h => by simp [mkSetRecord, h], rfl⟩
  · intro wid wn dur et exn ms i
    constructor <;> simp [mkSetRecord]

theorem c4_witness :
    (mkSetRecord "w" "n" 60 "e" [] [] 0 ⟨none, some 50⟩).reps = 0 :=
  (c4_defaults_and_volume.2.1 "w" "n" 60 "e" [] [] 0 ⟨none, some 50⟩).1 rfl

/-- Claim C6: when the existing-IDs query fails, the existing set is taken to
be empty, the to-process list is the whole source list, and the incremental
run goes on to fetch (and, when details are available, rewrite) every source
workout rather than aborting. -/
theorem c6_query_failure (env : Env) (e : String) (h : env.existingQuery = .error e) :
    get_existing_workout_ids env.existingQuery = [] ∧
    workouts_to_process false env.sourceIds (get_existing_workout_ids env.existingQuery) =
      env.sourceIds ∧
    (∀ id ∈ env.sourceIds, Action.fetchDetails id ∈ main false false env) ∧
    (∀ id d, id ∈ env.sourceIds → env.detailsOf id = some d →
      Action.writeSummary (mkSummary id d) ∈ main false false env) := by
  have h0 : get_existing_workout_ids env.existingQuery = [] := by rw [h]; rfl
  have h1 : workouts_to_process false env.sourceIds
      (get_existing_workout_ids env.existingQuery) = env.sourceIds := by
    rw [h0]
    simp [workouts_to_process]
  refine ⟨h0, h1, ?_, ?_⟩
  · intro id hid
    exact mem_main_incremental ⟨id, by rw [h1]; exact hid,
      fetchDetails_mem_workoutActions env.detailsOf env.exerciseOf id⟩
  · intro id d hid hd
    exact mem_main_incremental ⟨id, by rw [h1]; exact hid,
      writeSummary_mem_workoutActions env.exerciseOf hd⟩

theorem c6_witness :
    workouts_to_process false errorEnv.sourceIds
      (get_existing_workout_ids errorEnv.existingQuery) = errorEnv.sourceIds :=
  (c6_query_failure errorEnv "boom" rfl).2.1

/-- Claim C7, counterexample: a tab — and likewise a file separator U+001C
from the Unicode part of the class — survives the regex filter (whose `\s`
keeps all Python whitespace) and is not replaced by an underscore (only the
space character is), so the slug alphabet is not confined to lowercase
alphanumerics, underscore and hyphen. -/
theorem c7_counterexample :
    ('\t' ∈ slugify ("a\tb".toList) ∧ slugChar '\t' = false) ∧
    ('\x1c' ∈ slugify ("a\x1cb".toList) ∧ slugChar '\x1c' = false) := by decide

/-- Claim C7 (amended): every character of a derived slug is a lowercase
alphanumeric, underscore or hyphen — or a whitespace character other than the
space itself (any member of Python's Unicode whitespace class except U+0020:
tab, LF, VT, FF, CR, the separators U+001C-U+001F, NEL, NBSP, the Unicode
space range), which the regex keeps and the space-replacement leaves alone;
no space character ever remains in a slug. -/
theorem c7_slug_alphabet (s : List Char) :
    (∀ c ∈ slugify s, slugChar c = true ∨ (pyIsSpace c = true ∧ c ≠ ' ')) ∧
    ' ' ∉ slugify s := by
  constructor
  · intro c hc
    have hg := slugify_chars_good c hc
    unfold goodOut at hg
    rcases (Bool.or_eq_true _ _).mp hg with hsl | hws
    · exact Or.inl hsl
    · rcases (Bool.and_eq_true _ _).mp hws with ⟨h1, h2⟩
      refine Or.inr ⟨h1, ?_⟩
      simpa using h2
  · intro hsp
    have hg := slugify_chars_good ' ' hsp
    exact absurd hg (by decide)

theorem c7_witness : slugChar 'a' = true ∨ (pyIsSpace 'a' = true ∧ 'a' ≠ ' ') :=
  (c7_slug_alphabet ['a']).1 'a' (by decide)

/-- Claim C8: a dry run on a non-empty source list fetches details exactly
once — for the first source identifier — and performs no destination write,
delete or query at all. -/
theorem c8_dry_run (reset : Bool) (env : Env) (h : env.sourceIds ≠ []) :
    ∃ firstId rest, env.sourceIds = firstId :: rest ∧
      main true reset env = [Action.fetchList, Action.fetchDetails firstId] ∧
      (main true reset env).countP isFetchDetails = 1 ∧
      (main true reset env).countP isDestinationCall = 0 := by
  rcases hs : env.sourceIds with _ | ⟨f, t⟩
  · exact absurd hs h
  · refine ⟨f, t, rfl, ?_, ?_, ?_⟩ <;>
      simp [main, hs, List.countP_cons, isFetchDetails, isDestinationCall]

theorem c8_witness : (main true false sampleEnv).countP isDestinationCall = 0 := by
  obtain ⟨f, rest, hfr, htrace, hone, hzero⟩ := c8_dry_run false sampleEnv (by simp [sampleEnv])
  exact hzero

/-- Claim C9: for a processed workout whose details are available, if there is
no `information` key, no `information.exercises` key, or every exercise lacks
a `sets` key, then exactly one summary point and zero per-set points are
written for that workout. -/
theorem c9_summary_only (dO : String → Option WorkoutDetails)
    (eo : List Char → Option (Option (List String))) (wid : String) (d : WorkoutDetails)
    (hd : dO wid = some d)
    (h : d.information = none ∨
      (∃ info, d.information = some info ∧ info.exercises = none) ∨
      (∃ info exs, d.information = some info ∧ info.exercises = some exs ∧
        ∀ ex ∈ exs, ex.sets = none)) :
    (workoutActions dO eo wid).countP isWriteSummary = 1 ∧
    (workoutActions dO eo wid).countP isWriteSet = 0 := by
  unfold workoutActions
  simp only [hd]
  rcases h with h | ⟨info, hi, he⟩ | ⟨info, exs, hi, he, hsets⟩
  · simp only [h]
    simp [List.countP_cons, isWriteSummary, isWriteSet]
  · simp only [hi, he]
    simp [List.countP_cons, isWriteSummary, isWriteSet]
  · simp only [hi, he]
    have hc := flatMap_counts_no_sets eo wid d.name d.duration d.endTime exs hsets
    simp [List.countP_cons, isWriteSummary, isWriteSet, hc.1, hc.2]

theorem c9_witness :
    (workoutActions (fun _ => some sampleDetails) (fun _ => none) "w1").countP
      isWriteSummary = 1 ∧
    (workoutActions (fun _ => some sampleDetails) (fun _ => none) "w1").countP
      isWriteSet = 0 :=
  c9_summary_only (fun _ => some sampleDetails) (fun _ => none) "w1" sampleDetails rfl
    (Or.inl rfl)

/-- Claim C10: `slugify` is idempotent — slugifying an already-derived slug
leaves it unchanged. -/
theorem c10_slugify_idempotent (s : List Char) : slugify (slugify s) = slugify s :=
  slugify_idem s

theorem c10_witness :
    slugify (slugify ("A b".toList)) = slugify ("A b".toList) :=
  c10_slugify_idempotent ("A b".toList)

end Ryot
